import Mathlib

/-!
Verification of the tabular view engine of `src/app.py` (Breakers Companion).

The Python source is shallowly embedded below: pandas `DataFrame`s become the
`Df` structure, the `RowFilterProxy` class becomes a record of its two fields
`_needle`/`_mask` (plus an execution counter for `_compute_mask`, the
"computation counter" the spec's testable properties refer to), and each
method becomes a pure state-passing function translated line by line from the
source.  Machine-level concerns (Qt object identity, repaints) are abstracted;
the observable data (needle, mask, row acceptance, visible row count, the
recents list) are modelled exactly.
-/

namespace BreakersCompanion

/-- Cell values of the in-memory table: pandas cells as used by this app are
strings, integers, booleans, or missing (`NaN`/`None`). -/
inductive Value where
  | vStr (s : String)
  | vInt (n : Int)
  | vBool (b : Bool)
  | vNA
deriving DecidableEq, Repr

/-- Display-stringification of one cell, from `DataFrameModel.data`:
`"" if pd.isna(val) else str(val)`.  Python `str(True) = "True"`,
`str(False) = "False"`, `str` of an integer is its decimal rendering.
`df.fillna("").astype(str)` in `_compute_mask` renders cells identically
(missing becomes the empty string, everything else its `str`). -/
def pyStr : Value → String
  | .vStr s => s
  | .vInt n => toString n
  | .vBool b => if b then "True" else "False"
  | .vNA => ""

/-- The rectangular dataset (`pd.DataFrame`): ordered column names and rows of
values aligned to the columns. -/
structure Df where
  cols : List String
  rows : List (List Value)
deriving DecidableEq, Repr

/-- pandas `df.empty`: true when either axis has length zero. -/
def Df.pyEmpty (d : Df) : Bool := d.rows.isEmpty || d.cols.isEmpty

/-- Lower-casing, character by character (Python `str.lower`; the two agree
on the ASCII range this app's data uses). -/
def lowerChars (l : List Char) : List Char := l.map Char.toLower

/-- Drop leading whitespace. -/
def dropWs : List Char → List Char
  | [] => []
  | c :: cs => if c.isWhitespace then dropWs cs else c :: cs

/-- Python `str.strip`: drop whitespace from both ends. -/
def stripChars (l : List Char) : List Char :=
  (dropWs (dropWs l).reverse).reverse

/-- Python `text.strip().lower()` as applied by `setFilterQuery`: trim
whitespace at both ends, then lower-case. -/
def pyNormalize (t : String) : String := ⟨lowerChars (stripChars t.data)⟩

/-- Python `" ".join`: concatenate with a single space between consecutive items. -/
def joinSpace : List (List Char) → List Char
  | [] => []
  | [x] => x
  | x :: y :: rest => x ++ ' ' :: joinSpace (y :: rest)

/-- The per-row haystack built by `_compute_mask`:
`df.fillna("").astype(str).agg(" ".join, axis=1).str.lower()` — the
display strings of the row's cells joined by single spaces, lower-cased. -/
def rowHaystack (r : List Value) : String :=
  ⟨lowerChars (joinSpace (r.map fun v => (pyStr v).data))⟩

/-- One step of the Python regex engine restricted to the fragment relevant
here: the metacharacter `.` matches any character, any other pattern
character matches only itself. -/
def charMatches (p c : Char) : Bool := p == '.' || p == c

/-- Does the pattern match a prefix of the haystack (both as char lists)? -/
def matchesHere : List Char → List Char → Bool
  | [], _ => true
  | _ :: _, [] => false
  | p :: ps, c :: cs => charMatches p c && matchesHere ps cs

/-- Does the pattern match starting at some position of the haystack? -/
def searchFrom (pat : List Char) : List Char → Bool
  | [] => matchesHere pat []
  | c :: cs => matchesHere pat (c :: cs) || searchFrom pat cs

/-- Model of `Series.str.contains(pat)` with its default `regex=True` (Python
`re.search`), restricted to patterns whose only metacharacter is `.` — the
source passes the raw user needle as the pattern, so this is the semantics
the code actually gives such needles. -/
def reSearch (pat hay : String) : Bool := searchFrom pat.data hay.data

/-- Exact prefix test on char lists. -/
def startsWithChars : List Char → List Char → Bool
  | [], _ => true
  | _ :: _, [] => false
  | a :: as, b :: bs => a == b && startsWithChars as bs

/-- Exact contiguous-substring test on char lists. -/
def containsChars (pat : List Char) : List Char → Bool
  | [] => startsWithChars pat []
  | c :: cs => startsWithChars pat (c :: cs) || containsChars pat cs

/-- Plain contiguous-substring containment — the matching semantics the spec
prescribes for the filter ("substring, not regex").  Kept separate from
`reSearch` so the two can be compared on the same inputs. -/
def plainContains (needle hay : String) : Bool :=
  containsChars needle.data hay.data

/-- State of `RowFilterProxy`: the normalized needle, the optional cached
row mask, and a counter of `_compute_mask` executions (instrumentation only;
the spec's idempotence property is stated "observable via a computation
counter in tests"). -/
structure RowFilterProxy where
  needle : String
  mask : Option (List Bool)
  computeCount : Nat
deriving DecidableEq, Repr

/-- Source method `RowFilterProxy._compute_mask`, as a function of the source model's
dataframe and the needle: `None` when the dataframe is empty, all-`True`
when the needle is empty, otherwise the regex containment test of the
needle against each row's lower-cased space-joined display string. -/
def computeMask (d : Df) (needle : String) : Option (List Bool) :=
  if d.pyEmpty then none
  else if needle = "" then some (d.rows.map fun _ => true)
  else some (d.rows.map fun r => reSearch needle (rowHaystack r))

/-- The `if self._mask is None: self._compute_mask()` step at the top of
`filterAcceptsRow`: compute and store the mask when absent, counting one
execution of `_compute_mask`; otherwise leave the proxy untouched. -/
def ensureMask (d : Df) (p : RowFilterProxy) : RowFilterProxy :=
  match p.mask with
  | none =>
    { p with mask := computeMask d p.needle, computeCount := p.computeCount + 1 }
  | some _ => p

/-- The read half of `filterAcceptsRow` after the mask is ensured: a missing
mask accepts every row; an out-of-range index (negative or beyond the mask
length) accepts the row; otherwise the cached mask entry decides.  The
source's `try ... except: return True` around `mask.iat[r]` is the `getD`
default. -/
def maskAccepts (mask : Option (List Bool)) (r : Int) : Bool :=
  match mask with
  | none => true
  | some m =>
    if r < 0 || (m.length : Int) ≤ r then true
    else m.getD r.toNat true

/-- Source method `RowFilterProxy.filterAcceptsRow`: ensure the mask, then decide the row,
returning the decision together with the updated proxy state. -/
def filterAcceptsRow (d : Df) (r : Int) (p : RowFilterProxy) : Bool × RowFilterProxy :=
  let q := ensureMask d p
  (maskAccepts q.mask r, q)

/-- Source method `RowFilterProxy.setFilterQuery`: normalize the text; when it differs from
the cached needle, store it and drop the mask (`invalidateFilter` sets
`_mask = None`); when equal, do nothing. -/
def setFilterQuery (text : String) (p : RowFilterProxy) : RowFilterProxy :=
  let t := pyNormalize text
  if t ≠ p.needle then { p with needle := t, mask := none } else p

/-- Source method `RowFilterProxy.invalidate`: drop the cached mask, keep the needle. -/
def RowFilterProxy.invalidate (p : RowFilterProxy) : RowFilterProxy :=
  { p with mask := none }

/-- State of `TablePage`: the source model's dataframe, the filter proxy, the
title label, and the view's sort state (`QTableView` sort indicator: chosen
column and direction, initially unset). -/
structure TablePage where
  df : Df
  proxy : RowFilterProxy
  title : String
  sortColumn : Option Nat
  sortAscending : Bool
deriving DecidableEq, Repr

/-- Source method `TablePage.set_dataframe`: install the new dataframe in the source model
and call `proxy.invalidate()`.  Nothing else is touched: in particular the
needle and the view's sort state are left as they are. -/
def setDataframe (d : Df) (s : TablePage) : TablePage :=
  { s with df := d, proxy := s.proxy.invalidate }

/-- Source method `TablePage.set_title`. -/
def setTitle (t : String) (s : TablePage) : TablePage := { s with title := t }

/-- The proxy's visible row count: the number of source rows accepted by
`filterAcceptsRow` during one repaint (the mask is computed once at the
first query and then read for each row). -/
def visibleRowCount (s : TablePage) : Nat :=
  let q := ensureMask s.df s.proxy
  ((List.range s.df.rows.length).filter fun r => maskAccepts q.mask (r : Int)).length

/-- The filtered size of a dataframe under a needle: how many row indices the
freshly computed mask accepts. -/
def filteredCount (d : Df) (needle : String) : Nat :=
  ((List.range d.rows.length).filter fun r =>
    maskAccepts (computeMask d needle) (r : Int)).length

/-- The underlying row indices currently included by the filter, in table
order. -/
def includedRows (d : Df) (needle : String) : List Nat :=
  (List.range d.rows.length).filter fun r =>
    maskAccepts (computeMask d needle) (r : Int)

/-- Display string of one cell by position (missing positions render as the
empty label, like a missing value). -/
def cellDisplay (d : Df) (r c : Nat) : String :=
  pyStr ((d.rows.getD r []).getD c Value.vNA)

/-- Sort keys: a numeric key or a display-string key. -/
inductive SortKey where
  | num (n : Int)
  | str (s : String)
deriving DecidableEq, Repr

/-- Total comparison on sort keys (numeric before string so the order is
total even across kinds; within one sort every key has the same kind). -/
def keyLe : SortKey → SortKey → Bool
  | .num a, .num b => decide (a ≤ b)
  | .num _, .str _ => true
  | .str _, .num _ => false
  | .str a, .str b => decide (a ≤ b)

/-- Decimal digit value of one character, when it is a digit. -/
def digitVal? (c : Char) : Option Nat :=
  if c.isDigit then some (c.toNat - 48) else none

/-- Value of a nonempty all-digit character list. -/
def digitsVal? : List Char → Option Nat
  | [] => none
  | [c] => digitVal? c
  | c :: cs =>
    match digitVal? c, digitsVal? cs with
    | some d, some n => some (d * 10 ^ cs.length + n)
    | _, _ => none

/-- Integer-literal parse (optional leading minus then digits); the numeric
parse used by the sort key, with numbers modelled as integers. -/
def parseInt? : List Char → Option Int
  | '-' :: rest => (digitsVal? rest).map fun n => -(n : Int)
  | l => (digitsVal? l).map fun n => (n : Int)

/-- Modelled from the spec: the sort key of an included row in a column —
the column-sorting comparator lives in the UI toolkit's proxy model, not in
`src/app.py`, so it is taken from the spec's `setSort` contract: compare by
the cell's numeric value when every included value of the column parses as a
number (numbers modelled as integers), otherwise by its display string. -/
def colKey (d : Df) (needle : String) (c : Nat) (r : Nat) : SortKey :=
  if (includedRows d needle).all fun i => (parseInt? (cellDisplay d i c).data).isSome
  then .num ((parseInt? (cellDisplay d r c).data).getD 0)
  else .str (cellDisplay d r c)

/-- Row comparison for one sort request: key order for ascending, its
reverse for descending. -/
def rowLe (d : Df) (needle : String) (c : Nat) (asc : Bool) (a b : Nat) : Bool :=
  if asc then keyLe (colKey d needle c a) (colKey d needle c b)
  else keyLe (colKey d needle c b) (colKey d needle c a)

/-- Modelled from the spec: `setSort` rebuilds the ordered index list by
stable-sorting the currently-included row indices (merge sort is the stable
sort). -/
def sortedIncluded (d : Df) (needle : String) (c : Nat) (asc : Bool) : List Nat :=
  (includedRows d needle).mergeSort (rowLe d needle c asc)

/-- A sort-column click: record the chosen column and direction in the view
state.  The ordered index list itself is pull-based (`viewOrder` below),
mirroring the lazy-and-cache discipline; the filter proxy's fields are not
part of the sort path. -/
def setSort (c : Nat) (asc : Bool) (s : TablePage) : TablePage :=
  { s with sortColumn := some c, sortAscending := asc }

/-- The visible row order of a page: the included rows, stable-sorted by the
chosen column when one is set. -/
def viewOrder (s : TablePage) : List Nat :=
  match s.sortColumn with
  | none => includedRows s.df s.proxy.needle
  | some c => sortedIncluded s.df s.proxy.needle c s.sortAscending

/-- The table-page route of `MainWindow._apply_search` (stack index 2):
`self.table.proxy.setFilterQuery(txt)`. -/
def applyQueryToPage (t : String) (s : TablePage) : TablePage :=
  { s with proxy := setFilterQuery t s.proxy }

/-- The deduplication loop of `save_recent_files`: keep the first occurrence
of each string, tracking the already-seen strings exactly as the Python
`seen` set does. -/
def dedupLoop (seen : List String) : List String → List String
  | [] => []
  | s :: rest =>
    if s ∈ seen then dedupLoop seen rest
    else s :: dedupLoop (s :: seen) rest

/-- Source function `save_recent_files`: deduplicate keeping first occurrences (the write to
`saved_sets.json` persists exactly this list). -/
def saveRecentFiles (items : List String) : List String := dedupLoop [] items

/-- Source function `push_recent`: put the path string first, drop its other occurrences,
truncate to 60, and persist through `save_recent_files`. -/
def pushRecent (s : String) (items : List String) : List String :=
  saveRecentFiles (((s :: items.filter fun x => x ≠ s).take 60))

/-- State of `MainWindow` as far as loading is concerned: the table page, the
persisted recents list, the current stack index (0 home, 1 saved wall,
2 table), and the status-bar message. -/
structure MainSt where
  page : TablePage
  recents : List String
  stackIndex : Nat
  statusMsg : String
deriving DecidableEq, Repr

/-- Source method `MainWindow._open_path` with the file-parsing collaborator
(`pd.read_excel` plus column stringification) abstracted as an `Except`
argument: the status message is posted first (inside the `try`), then on a
parse failure the handler only shows a message box — no other state is
touched; on success the dataframe is installed, the title set, the path
pushed onto the recents, and the table page shown. -/
def openPath (parse : Except String Df) (name : String) (st : MainSt) : MainSt :=
  let st1 := { st with statusMsg := "Loading " ++ name }
  match parse with
  | .error _ => st1
  | .ok d =>
    { st1 with
      page := setTitle name (setDataframe d st1.page)
      recents := pushRecent name st1.recents
      stackIndex := 2
      statusMsg := "Loaded " ++ name }

/-- State of the debounced-search machinery of `MainWindow`: the search
line's current text, whether the 200 ms single-shot timer is pending, the
current stack index, the table page, the saved-wall's applied filter text,
a counter of `_apply_search` runs (view refreshes), and the log of texts
committed to the table filter. -/
structure SearchUI where
  lineText : String
  timerActive : Bool
  stackIndex : Nat
  page : TablePage
  wallQuery : String
  applyCount : Nat
  commits : List String
deriving DecidableEq, Repr

/-- The `textChanged` handler (`lambda _: self._debounce.start()`): the line
edit now holds the new text and the single-shot timer is (re)started.  The
filter engine is not called here. -/
def onQueryChanged (t : String) (s : SearchUI) : SearchUI :=
  { s with lineText := t, timerActive := true }

/-- Source method `MainWindow._apply_search`: read the search line, route by the current
stack index — the saved wall applies its name filter, the table page passes
the text to `setFilterQuery`; counts as one view refresh either way. -/
def applySearch (s : SearchUI) : SearchUI :=
  if s.stackIndex = 2 then
    { s with
      page := applyQueryToPage s.lineText s.page
      applyCount := s.applyCount + 1
      commits := s.commits ++ [s.lineText] }
  else if s.stackIndex = 1 then
    { s with wallQuery := pyNormalize s.lineText, applyCount := s.applyCount + 1 }
  else { s with applyCount := s.applyCount + 1 }

/-- Expiry of the single-shot timer: fires only when pending, returns to
idle, and runs `_apply_search` once. -/
def timerFire (s : SearchUI) : SearchUI :=
  if s.timerActive then applySearch { s with timerActive := false } else s

/-- The spec's end-to-end example table. -/
def dfEx : Df :=
  { cols := ["Player", "Team", "Owned"]
    rows := [[.vStr "Mike Trout", .vStr "Angels", .vBool false],
             [.vStr "Bryce Harper", .vStr "Phillies", .vBool true]] }

/-- A table whose two rows tie on column 0. -/
def dfTie : Df :=
  { cols := ["P"], rows := [[.vStr "x"], [.vStr "x"]] }

/-- A one-row table whose joined display string is `abc`. -/
def dfC1 : Df := { cols := ["Player"], rows := [[.vStr "abc"]] }

/-- A page state carrying a nonempty needle and a cached mask. -/
def pageEx : TablePage :=
  { df := dfEx
    proxy := { needle := "tro", mask := some [true, false], computeCount := 1 }
    title := ""
    sortColumn := none
    sortAscending := true }

section Lemmas

/-- Every member of `dedupLoop seen l` avoids `seen`. -/
theorem not_mem_seen_of_mem_dedupLoop {x : String} :
    ∀ {l seen : List String}, x ∈ dedupLoop seen l → x ∉ seen := by
  intro l
  induction l with
  | nil => intro seen h; simp [dedupLoop] at h
  | cons a rest ih =>
    intro seen h
    by_cases ha : a ∈ seen
    · rw [dedupLoop, if_pos ha] at h
      exact ih h
    · rw [dedupLoop, if_neg ha] at h
      rcases List.mem_cons.mp h with h | h
      · exact h ▸ ha
      · intro hx
        exact (ih h) (List.mem_cons_of_mem a hx)

/-- The `dedupLoop` output has no duplicates. -/
theorem nodup_dedupLoop : ∀ (l seen : List String), (dedupLoop seen l).Nodup := by
  intro l
  induction l with
  | nil => intro seen; simp [dedupLoop]
  | cons a rest ih =>
    intro seen
    by_cases ha : a ∈ seen
    · rw [dedupLoop, if_pos ha]; exact ih seen
    · rw [dedupLoop, if_neg ha]
      refine List.nodup_cons.mpr ⟨fun hmem => ?_, ih (a :: seen)⟩
      exact (not_mem_seen_of_mem_dedupLoop hmem) (List.mem_cons_self a seen)

/-- The function `dedupLoop` never lengthens its input. -/
theorem length_dedupLoop_le : ∀ (l seen : List String),
    (dedupLoop seen l).length ≤ l.length := by
  intro l
  induction l with
  | nil => intro seen; simp [dedupLoop]
  | cons a rest ih =>
    intro seen
    by_cases ha : a ∈ seen
    · rw [dedupLoop, if_pos ha]
      exact Nat.le_succ_of_le (ih seen)
    · rw [dedupLoop, if_neg ha]
      simpa using ih (a :: seen)

/-- Folding `onQueryChanged` over a burst of events only retypes the line
and leaves the timer pending; the final line text is the last event's. -/
theorem foldl_onQueryChanged :
    ∀ (ts : List String) (last : String) (s : SearchUI),
      ts.getLast? = some last →
      ts.foldl (fun a t => onQueryChanged t a) s =
        { s with lineText := last, timerActive := true }
  | [], _, _, h => by simp at h
  | [t], last, s, h => by
    simp only [List.getLast?_singleton, Option.some.injEq] at h
    simp [h, onQueryChanged]
  | t :: u :: us, last, s, h => by
    rw [List.getLast?_cons_cons] at h
    rw [List.foldl_cons]
    rw [foldl_onQueryChanged (u :: us) last (onQueryChanged t s) h]
    rfl

/-- The comparison `keyLe` is reflexive. -/
theorem keyLe_refl (x : SortKey) : keyLe x x = true := by
  cases x <;> simp [keyLe]

/-- The comparison `keyLe` is total. -/
theorem keyLe_total (x y : SortKey) : keyLe x y || keyLe y x := by
  cases x <;> cases y <;> simp [keyLe] <;> exact le_total _ _

/-- The comparison `keyLe` is transitive. -/
theorem keyLe_trans (x y z : SortKey) :
    keyLe x y → keyLe y z → keyLe x z := by
  cases x <;> cases y <;> cases z <;> simp [keyLe] <;> intro h1 h2 <;>
    exact le_trans h1 h2

/-- Row comparison is total. -/
theorem rowLe_total (d : Df) (needle : String) (c : Nat) (asc : Bool)
    (a b : Nat) : rowLe d needle c asc a b || rowLe d needle c asc b a := by
  cases asc <;> simp only [rowLe, if_true, if_false, Bool.false_eq_true] <;>
    exact keyLe_total _ _

/-- Row comparison is transitive. -/
theorem rowLe_trans (d : Df) (needle : String) (c : Nat) (asc : Bool)
    (a b e : Nat) :
    rowLe d needle c asc a b → rowLe d needle c asc b e →
    rowLe d needle c asc a e := by
  cases asc <;> simp only [rowLe, if_true, if_false, Bool.false_eq_true] <;>
    intro h1 h2
  · exact keyLe_trans _ _ _ h2 h1
  · exact keyLe_trans _ _ _ h1 h2

/-- Rows with equal sort keys compare `≤` in either direction. -/
theorem rowLe_of_key_eq {d : Df} {needle : String} {c : Nat} (asc : Bool)
    {a b : Nat} (hkey : colKey d needle c a = colKey d needle c b) :
    rowLe d needle c asc a b = true := by
  cases asc <;> simp [rowLe, hkey, keyLe_refl]

end Lemmas

/-- Claim C1: the spec demands that a row be included iff the lower-cased
space-joined display string of its cells contains the normalized needle as a
contiguous plain substring — not a regex.  The code instead hands the raw
needle to `Series.str.contains`, whose default is `regex=True`: with needle
`a.c` the single row whose joined display string is `abc` is accepted by the
code (the `.` matches `b`), while the spec's plain-substring test rejects
that row.  This evaluates both sides at that input. -/
theorem needle_treated_as_regex :
    (filterAcceptsRow dfC1 0
      (setFilterQuery "a.c" { needle := "", mask := none, computeCount := 0 })).fst = true
    ∧ plainContains (pyNormalize "a.c") (rowHaystack [Value.vStr "abc"]) = false :=
  ⟨by decide, by decide⟩

/-- Claim C3: `setFilterQuery` normalizes the text; an unchanged normalized
needle is a complete no-op (mask kept, nothing recomputed), a changed one
stores the new needle and drops the mask without recomputing eagerly;
calling it twice with the same text equals calling it once, and a subsequent
read performs at most one mask computation. -/
theorem setQuery_idempotent (t : String) (p : RowFilterProxy) (d : Df) :
    setFilterQuery t p =
      (if pyNormalize t = p.needle then p
       else { p with needle := pyNormalize t, mask := none })
    ∧ setFilterQuery t (setFilterQuery t p) = setFilterQuery t p
    ∧ (ensureMask d (setFilterQuery t (setFilterQuery t p))).mask
        = (ensureMask d (setFilterQuery t p)).mask
    ∧ (ensureMask d (setFilterQuery t p)).computeCount ≤ p.computeCount + 1 := by
  have h2 : setFilterQuery t (setFilterQuery t p) = setFilterQuery t p := by
    by_cases h : pyNormalize t = p.needle <;> simp [setFilterQuery, h]
  refine ⟨?_, h2, by rw [h2], ?_⟩
  · by_cases h : pyNormalize t = p.needle <;> simp [setFilterQuery, h]
  · by_cases h : pyNormalize t = p.needle
    · cases hm : p.mask <;> simp [setFilterQuery, ensureMask, h, hm]
    · simp [setFilterQuery, ensureMask, h]

/-- Claim C4: installing a new table resets the cached mask to absent while
keeping the current needle, so the visible row count next reflects the new
table filtered under the current query; and a needle change likewise drops
the mask before it is next read. -/
theorem install_invalidates (d : Df) (s : TablePage) (t : String) (p : RowFilterProxy) :
    (setDataframe d s).proxy.mask = none
    ∧ (setDataframe d s).proxy.needle = s.proxy.needle
    ∧ visibleRowCount (setDataframe d s) = filteredCount d s.proxy.needle
    ∧ (setFilterQuery t p).mask = (if pyNormalize t = p.needle then p.mask else none) := by
  refine ⟨rfl, rfl, rfl, ?_⟩
  by_cases h : pyNormalize t = p.needle <;> simp [setFilterQuery, h]

/-- Claim C5: `filterAcceptsRow` with a row index out of range of the cached
mask (negative, or at least the mask length — e.g. after the table was
swapped under a stale mask) answers `true` instead of failing. -/
theorem failOpen_out_of_range (d : Df) (p : RowFilterProxy) (m : List Bool) (r : Int)
    (hm : p.mask = some m) (hr : (m.length : Int) ≤ r ∨ r < 0) :
    (filterAcceptsRow d r p).fst = true := by
  rcases hr with h | h <;> simp [filterAcceptsRow, ensureMask, hm, maskAccepts, h]

/-- A proxy holding a two-row mask. -/
def proxyW : RowFilterProxy := { needle := "q", mask := some [false, false], computeCount := 1 }

/-- Witness for C5: index 5 against the cached two-entry mask is accepted. -/
theorem failOpen_witness :
    proxyW.mask = some [false, false]
    ∧ ((((([false, false] : List Bool).length : Int) ≤ 5) ∨ ((5 : Int) < 0)))
    ∧ (filterAcceptsRow dfEx 5 proxyW).fst = true :=
  ⟨rfl, Or.inl (by decide),
    failOpen_out_of_range dfEx proxyW [false, false] 5 rfl (Or.inl (by decide))⟩

/-- Claim C6: a load whose parsing step fails leaves the table page (table
and filter state), the recents list and the shown screen exactly as they
were — only the status message was posted. -/
theorem failed_load_preserves_state (e : String) (nm : String) (st : MainSt) :
    (openPath (.error e) nm st).page = st.page
    ∧ (openPath (.error e) nm st).recents = st.recents
    ∧ (openPath (.error e) nm st).stackIndex = st.stackIndex :=
  ⟨rfl, rfl, rfl⟩

/-- Counterexample to claim C7: installing a new table does not reset the
needle to the empty string — a page filtering on `tro` still has needle
`tro` afterwards, so the FilterState is not reset in both fields. -/
theorem install_keeps_needle :
    (setDataframe dfTie pageEx).proxy.needle ≠ "" := by decide

/-- Claim C7 as amended: installing a new table resets only the mask to
absent; the needle is preserved, so the current query continues to apply to
the new table. -/
theorem install_resets_mask_only (d : Df) (s : TablePage) :
    (setDataframe d s).proxy.mask = none
    ∧ (setDataframe d s).proxy.needle = s.proxy.needle :=
  ⟨rfl, rfl⟩

/-- Claim C8: sorting and filtering are orthogonal — a sort-column click
leaves the filter proxy (needle, cached mask, computation count) and the
table untouched while rebuilding the view order from the included rows, and
a query change leaves the chosen sort column and direction untouched. -/
theorem sort_filter_orthogonal (c : Nat) (asc : Bool) (t : String) (s : TablePage) :
    (setSort c asc s).proxy = s.proxy
    ∧ (setSort c asc s).df = s.df
    ∧ (applyQueryToPage t s).sortColumn = s.sortColumn
    ∧ (applyQueryToPage t s).sortAscending = s.sortAscending
    ∧ viewOrder (setSort c asc s) = sortedIncluded s.df s.proxy.needle c asc :=
  ⟨rfl, rfl, rfl, rfl, rfl⟩

/-- Claim C9: the column sort is deterministic and stable — re-sorting the
already sorted index list with the same column and direction returns it
unchanged, and two included rows with equal sort keys keep their relative
order from the unsorted included list. -/
theorem setSort_stable_deterministic (d : Df) (needle : String) (c : Nat) (asc : Bool)
    (a b : Nat) (hkey : colKey d needle c a = colKey d needle c b)
    (hpair : List.Sublist [a, b] (includedRows d needle)) :
    (sortedIncluded d needle c asc).mergeSort (rowLe d needle c asc)
      = sortedIncluded d needle c asc
    ∧ List.Sublist [a, b] (sortedIncluded d needle c asc) := by
  constructor
  · exact List.mergeSort_of_sorted
      (List.sorted_mergeSort (rowLe_trans d needle c asc) (rowLe_total d needle c asc) _)
  · exact List.pair_sublist_mergeSort (rowLe_trans d needle c asc)
      (rowLe_total d needle c asc) (rowLe_of_key_eq asc hkey) hpair

/-- Witness for C9: in the tied two-row table both rows share the key, the
pair `[0, 1]` is the included list, and it survives sorting in order. -/
theorem setSort_stable_witness :
    colKey dfTie "" 0 0 = colKey dfTie "" 0 1
    ∧ List.Sublist [0, 1] (includedRows dfTie "")
    ∧ ((sortedIncluded dfTie "" 0 true).mergeSort (rowLe dfTie "" 0 true)
         = sortedIncluded dfTie "" 0 true
       ∧ List.Sublist [0, 1] (sortedIncluded dfTie "" 0 true)) :=
  ⟨by decide, by decide,
    setSort_stable_deterministic dfTie "" 0 true 0 1 (by decide) (by decide)⟩

/-- Claim C2: for a burst of query-text-changed events all arriving within
one quiet interval (no timer expiry between them) while the table page is
shown, the events themselves never touch the filter engine or refresh the
view — they only leave the single-shot timer pending — and the one expiry
after the burst performs exactly one commit, passing the last event's text
to `setFilterQuery`, and one view refresh; a further expiry does nothing. -/
theorem debounce_single_commit (ts : List String) (last : String) (s : SearchUI)
    (hlast : ts.getLast? = some last) (hidx : s.stackIndex = 2) :
    (ts.foldl (fun a t => onQueryChanged t a) s).commits = s.commits
    ∧ (ts.foldl (fun a t => onQueryChanged t a) s).applyCount = s.applyCount
    ∧ (ts.foldl (fun a t => onQueryChanged t a) s).page = s.page
    ∧ (timerFire (ts.foldl (fun a t => onQueryChanged t a) s)).commits
        = s.commits ++ [last]
    ∧ (timerFire (ts.foldl (fun a t => onQueryChanged t a) s)).applyCount
        = s.applyCount + 1
    ∧ (timerFire (ts.foldl (fun a t => onQueryChanged t a) s)).page.proxy
        = setFilterQuery last s.page.proxy
    ∧ timerFire (timerFire (ts.foldl (fun a t => onQueryChanged t a) s))
        = timerFire (ts.foldl (fun a t => onQueryChanged t a) s) := by
  rw [foldl_onQueryChanged ts last s hlast]
  refine ⟨rfl, rfl, rfl, ?_, ?_, ?_, ?_⟩ <;>
    simp [timerFire, applySearch, hidx, applyQueryToPage]

/-- The search machinery showing the table page, idle, with an empty log. -/
def searchW : SearchUI :=
  { lineText := ""
    timerActive := false
    stackIndex := 2
    page := pageEx
    wallQuery := ""
    applyCount := 0
    commits := [] }

/-- Witness for C2: three keystrokes `t`, `tr`, `tro` inside one quiet
interval commit once, with text `tro`, on expiry. -/
theorem debounce_witness :
    (["t", "tr", "tro"] : List String).getLast? = some "tro"
    ∧ searchW.stackIndex = 2
    ∧ ((["t", "tr", "tro"].foldl (fun a t => onQueryChanged t a) searchW).commits
         = searchW.commits
       ∧ (["t", "tr", "tro"].foldl (fun a t => onQueryChanged t a) searchW).applyCount
         = searchW.applyCount
       ∧ (["t", "tr", "tro"].foldl (fun a t => onQueryChanged t a) searchW).page
         = searchW.page
       ∧ (timerFire (["t", "tr", "tro"].foldl (fun a t => onQueryChanged t a) searchW)).commits
         = searchW.commits ++ ["tro"]
       ∧ (timerFire (["t", "tr", "tro"].foldl (fun a t => onQueryChanged t a) searchW)).applyCount
         = searchW.applyCount + 1
       ∧ (timerFire (["t", "tr", "tro"].foldl (fun a t => onQueryChanged t a) searchW)).page.proxy
         = setFilterQuery "tro" searchW.page.proxy
       ∧ timerFire (timerFire (["t", "tr", "tro"].foldl (fun a t => onQueryChanged t a) searchW))
         = timerFire (["t", "tr", "tro"].foldl (fun a t => onQueryChanged t a) searchW)) :=
  ⟨rfl, rfl, debounce_single_commit ["t", "tr", "tro"] "tro" searchW rfl rfl⟩

/-- Claim C10: after `push_recent`, the persisted recents list starts with
the pushed path string, contains no duplicates, and holds at most 60
entries. -/
theorem pushRecent_spec (s : String) (items : List String) :
    (pushRecent s items).head? = some s
    ∧ (pushRecent s items).Nodup
    ∧ (pushRecent s items).length ≤ 60 := by
  refine ⟨?_, nodup_dedupLoop _ _, ?_⟩
  · show (dedupLoop [] ((s :: items.filter fun x => x ≠ s).take 60)).head? = some s
    rw [show (60 : Nat) = 59 + 1 from rfl, List.take_succ_cons]
    rw [dedupLoop, if_neg (List.not_mem_nil s)]
    rfl
  · calc (pushRecent s items).length
        ≤ ((s :: items.filter fun x => x ≠ s).take 60).length :=
          length_dedupLoop_le _ _
      _ ≤ 60 := List.length_take_le _ _

end BreakersCompanion
